import Mathlib

/-!
Verification of the RocksDict typed front end (rdict.rs / options.rs)
over a shallow embedding in Lean 4.

Byte sequences are modelled as `List Nat` (each entry a byte value),
machine integers as `Int`/`Nat` with explicit bounds, and the Python/
engine error channel as an explicit `Except` result.  The key/value
codec (crate::encoder) is not part of the two source files; it is
modelled from the specification, as marked in the doc comments below.
-/

namespace RocksDict

/-- Byte sequences: lists of byte values. -/
abbrev Bytes := List Nat

/-- Three-way comparison on naturals. -/
def natCompare (a b : Nat) : Ordering :=
  if a < b then .lt else if b < a then .gt else .eq

/-- Three-way comparison on integers. -/
def intCompare (a b : Int) : Ordering :=
  if a < b then .lt else if b < a then .gt else .eq

/-- Three-way comparison on booleans, with false below true. -/
def boolCompare (a b : Bool) : Ordering :=
  match a, b with
  | false, false => .eq
  | false, true => .lt
  | true, false => .gt
  | true, true => .eq

/-- Lexicographic comparison of byte sequences under unsigned byte
comparison; a strict prefix compares below any extension. -/
def lexCompare : List Nat → List Nat → Ordering
  | [], [] => .eq
  | [], _ :: _ => .lt
  | _ :: _, [] => .gt
  | a :: as, b :: bs =>
    if a < b then .lt else if b < a then .gt else lexCompare as bs

theorem lexCompare_nil_nil : lexCompare [] [] = .eq := rfl

theorem lexCompare_nil_cons (b : Nat) (bs : List Nat) :
    lexCompare [] (b :: bs) = .lt := rfl

theorem lexCompare_cons_nil (a : Nat) (as : List Nat) :
    lexCompare (a :: as) [] = .gt := rfl

theorem lexCompare_refl (l : List Nat) : lexCompare l l = .eq := by
  induction l with
  | nil => rfl
  | cons a as ih => simp [lexCompare, ih]

theorem lexCompare_swap (x y : List Nat) :
    (lexCompare x y).swap = lexCompare y x := by
  induction x generalizing y with
  | nil => cases y <;> rfl
  | cons a as ih =>
    cases y with
    | nil => rfl
    | cons b bs =>
      by_cases hab : a < b
      · have hba : ¬ b < a := by omega
        simp [lexCompare, hab, hba, Ordering.swap]
      · by_cases hba : b < a
        · simp [lexCompare, hab, hba, Ordering.swap]
        · simp [lexCompare, hab, hba, ih bs]

theorem lexCompare_append_left (p x y : List Nat) :
    lexCompare (p ++ x) (p ++ y) = lexCompare x y := by
  induction p with
  | nil => rfl
  | cons a as ih => simp [lexCompare, ih]

/-- The first list is pointwise below the second before either ends:
they share a (possibly empty) common prefix and then the first has a
strictly smaller byte, within the length of both. -/
def StrictLower : List Nat → List Nat → Prop
  | a :: as, b :: bs => a < b ∨ (a = b ∧ StrictLower as bs)
  | _, _ => False

theorem lexCompare_append_of_strictLower {x y : List Nat}
    (h : StrictLower x y) (s t : List Nat) :
    lexCompare (x ++ s) (y ++ t) = .lt := by
  induction x generalizing y with
  | nil => cases y <;> simp [StrictLower] at h
  | cons a as ih =>
    cases y with
    | nil => simp [StrictLower] at h
    | cons b bs =>
      rcases h with h | ⟨rfl, h⟩
      · have : ¬ b < a := by omega
        simp [lexCompare, h, this]
      · simp [lexCompare, ih h]

theorem lexCompare_append_of_strictLower_gt {x y : List Nat}
    (h : StrictLower y x) (s t : List Nat) :
    lexCompare (x ++ s) (y ++ t) = .gt := by
  have h1 := lexCompare_append_of_strictLower h t s
  have h2 := lexCompare_swap (y ++ t) (x ++ s)
  rw [h1] at h2
  simpa [Ordering.swap] using h2.symm

/-- Big-endian byte encoding of a natural number in `w` bytes,
most significant byte first. -/
def beBytes : Nat → Nat → List Nat
  | 0, _ => []
  | w + 1, n => (n / 256 ^ w) :: beBytes w (n % 256 ^ w)

theorem beBytes_length (w n : Nat) : (beBytes w n).length = w := by
  induction w generalizing n with
  | zero => rfl
  | succ w ih => simp [beBytes, ih]

/-- Big-endian encoding over a fixed width preserves order: comparing
the byte sequences lexicographically equals comparing the numbers. -/
theorem lexCompare_beBytes {w m n : Nat} (hm : m < 256 ^ w) (hn : n < 256 ^ w) :
    lexCompare (beBytes w m) (beBytes w n) = natCompare m n := by
  induction w generalizing m n with
  | zero =>
    have : m = 0 := by simpa using hm
    have : n = 0 := by simpa using hn
    subst_vars
    rfl
  | succ w ih =>
    have hpow : 0 < 256 ^ w := Nat.pos_pow_of_pos w (by omega)
    have hmd : 256 ^ w * (m / 256 ^ w) + m % 256 ^ w = m := Nat.div_add_mod m (256 ^ w)
    have hnd : 256 ^ w * (n / 256 ^ w) + n % 256 ^ w = n := Nat.div_add_mod n (256 ^ w)
    have hmr : m % 256 ^ w < 256 ^ w := Nat.mod_lt _ hpow
    have hnr : n % 256 ^ w < 256 ^ w := Nat.mod_lt _ hpow
    rw [beBytes, beBytes]
    rcases Nat.lt_trichotomy (m / 256 ^ w) (n / 256 ^ w) with hq | hq | hq
    · have hmul : 256 ^ w * (m / 256 ^ w + 1) ≤ 256 ^ w * (n / 256 ^ w) :=
        Nat.mul_le_mul_left _ (by omega)
      have hex : 256 ^ w * (m / 256 ^ w + 1) = 256 ^ w * (m / 256 ^ w) + 256 ^ w := by
        ring
      have hlt : m < n := by omega
      simp [lexCompare, natCompare, hq, hlt]
    · have hrec := ih hmr hnr
      rw [hq] at hmd
      have hsame : natCompare (m % 256 ^ w) (n % 256 ^ w) = natCompare m n := by
        simp only [natCompare]
        split_ifs <;> first | rfl | omega
      rw [hq]
      simp only [lexCompare, Nat.lt_irrefl, if_false]
      rw [hrec, hsame]
    · have hmul : 256 ^ w * (n / 256 ^ w + 1) ≤ 256 ^ w * (m / 256 ^ w) :=
        Nat.mul_le_mul_left _ (by omega)
      have hex : 256 ^ w * (n / 256 ^ w + 1) = 256 ^ w * (n / 256 ^ w) + 256 ^ w := by
        ring
      have hlt : n < m := by omega
      have h1 : ¬ m / 256 ^ w < n / 256 ^ w := by omega
      have h2 : ¬ m < n := by omega
      simp [lexCompare, natCompare, h1, hq, h2, hlt]

/-- Big-endian value of a byte sequence. -/
def beVal (l : List Nat) : Nat := l.foldl (fun acc b => acc * 256 + b) 0

theorem beVal_foldl (w n init : Nat) (h : n < 256 ^ w) :
    (beBytes w n).foldl (fun acc b => acc * 256 + b) init = init * 256 ^ w + n := by
  induction w generalizing n init with
  | zero =>
    have : n = 0 := by simpa using h
    subst this
    simp [beBytes]
  | succ w ih =>
    have hpow : 0 < 256 ^ w := Nat.pos_pow_of_pos w (by omega)
    have hmr : n % 256 ^ w < 256 ^ w := Nat.mod_lt _ hpow
    have hmd : 256 ^ w * (n / 256 ^ w) + n % 256 ^ w = n := Nat.div_add_mod n (256 ^ w)
    rw [beBytes]
    simp only [List.foldl_cons]
    rw [ih _ _ hmr]
    calc (init * 256 + n / 256 ^ w) * 256 ^ w + n % 256 ^ w
        = init * 256 ^ (w + 1) + (256 ^ w * (n / 256 ^ w) + n % 256 ^ w) := by ring
      _ = init * 256 ^ (w + 1) + n := by rw [hmd]

/-- Decoding a big-endian encoding returns the encoded number. -/
theorem beVal_beBytes {w n : Nat} (h : n < 256 ^ w) : beVal (beBytes w n) = n := by
  have := beVal_foldl w n 0 h
  simpa [beVal] using this

/-- Modelled from the spec: canonical UTF-8 encoding of one Unicode
codepoint (the fixed Unicode byte encoding the spec requires for text
keys, whose byte order matches codepoint order). -/
def utf8Char (c : Nat) : List Nat :=
  if c < 0x80 then [c]
  else if c < 0x800 then [0xC0 + c / 64, 0x80 + c % 64]
  else if c < 0x10000 then [0xE0 + c / 4096, 0x80 + c / 64 % 64, 0x80 + c % 64]
  else [0xF0 + c / 262144, 0x80 + c / 4096 % 64, 0x80 + c / 64 % 64, 0x80 + c % 64]

/-- Modelled from the spec: canonical encoding of a text value, the
concatenation of the UTF-8 encodings of its codepoints. -/
def utf8 (s : List Nat) : List Nat := (s.map utf8Char).flatten

theorem utf8_nil : utf8 [] = [] := rfl

theorem utf8_cons (c : Nat) (s : List Nat) : utf8 (c :: s) = utf8Char c ++ utf8 s := by
  simp [utf8]

theorem utf8Char_ne_nil (c : Nat) : utf8Char c ≠ [] := by
  unfold utf8Char
  split_ifs <;> simp

/-- A strictly smaller codepoint has a pointwise-lower UTF-8 encoding. -/
theorem utf8Char_strictLower {a b : Nat} (hab : a < b) :
    StrictLower (utf8Char a) (utf8Char b) := by
  unfold utf8Char
  by_cases ha1 : a < 0x80
  · by_cases hb1 : b < 0x80
    · simp only [if_pos ha1, if_pos hb1, StrictLower]
      left
      exact hab
    · by_cases hb2 : b < 0x800
      · simp only [if_pos ha1, if_neg hb1, if_pos hb2, StrictLower]
        left
        omega
      · by_cases hb3 : b < 0x10000
        · simp only [if_pos ha1, if_neg hb1, if_neg hb2, if_pos hb3, StrictLower]
          left
          omega
        · simp only [if_pos ha1, if_neg hb1, if_neg hb2, if_neg hb3, StrictLower]
          left
          omega
  · by_cases ha2 : a < 0x800
    · have hb1 : ¬ b < 0x80 := by omega
      by_cases hb2 : b < 0x800
      · simp only [if_neg ha1, if_pos ha2, if_neg hb1, if_pos hb2, StrictLower]
        rcases Nat.lt_trichotomy (a / 64) (b / 64) with hq | hq | hq
        · left
          omega
        · right
          refine ⟨by omega, Or.inl (by omega)⟩
        · omega
      · by_cases hb3 : b < 0x10000
        · simp only [if_neg ha1, if_pos ha2, if_neg hb1, if_neg hb2, if_pos hb3,
            StrictLower]
          left
          omega
        · simp only [if_neg ha1, if_pos ha2, if_neg hb1, if_neg hb2, if_neg hb3,
            StrictLower]
          left
          omega
    · by_cases ha3 : a < 0x10000
      · have hb1 : ¬ b < 0x80 := by omega
        have hb2 : ¬ b < 0x800 := by omega
        by_cases hb3 : b < 0x10000
        · simp only [if_neg ha1, if_neg ha2, if_pos ha3, if_neg hb1, if_neg hb2,
            if_pos hb3, StrictLower]
          rcases Nat.lt_trichotomy (a / 4096) (b / 4096) with hq | hq | hq
          · left
            omega
          · rcases Nat.lt_trichotomy (a / 64) (b / 64) with hq2 | hq2 | hq2
            · right
              refine ⟨by omega, Or.inl (by omega)⟩
            · right
              refine ⟨by omega, Or.inr ⟨by omega, Or.inl (by omega)⟩⟩
            · omega
          · omega
        · simp only [if_neg ha1, if_neg ha2, if_pos ha3, if_neg hb1, if_neg hb2,
            if_neg hb3, StrictLower]
          left
          omega
      · have hb1 : ¬ b < 0x80 := by omega
        have hb2 : ¬ b < 0x800 := by omega
        have hb3 : ¬ b < 0x10000 := by omega
        simp only [if_neg ha1, if_neg ha2, if_neg ha3, if_neg hb1, if_neg hb2,
          if_neg hb3, StrictLower]
        rcases Nat.lt_trichotomy (a / 262144) (b / 262144) with hq | hq | hq
        · left
          omega
        · rcases Nat.lt_trichotomy (a / 4096) (b / 4096) with hq2 | hq2 | hq2
          · right
            refine ⟨by omega, Or.inl (by omega)⟩
          · rcases Nat.lt_trichotomy (a / 64) (b / 64) with hq3 | hq3 | hq3
            · right
              refine ⟨by omega, Or.inr ⟨by omega, Or.inl (by omega)⟩⟩
            · right
              refine ⟨by omega, Or.inr ⟨by omega, Or.inr ⟨by omega, Or.inl (by omega)⟩⟩⟩
            · omega
          · omega
        · omega

/-- UTF-8 preserves lexicographic order: comparing two encoded texts
byte by byte equals comparing the codepoint sequences. -/
theorem lexCompare_utf8 (s t : List Nat) :
    lexCompare (utf8 s) (utf8 t) = lexCompare s t := by
  induction s generalizing t with
  | nil =>
    cases t with
    | nil => rfl
    | cons b bs =>
      rw [utf8_nil, utf8_cons]
      rcases List.exists_cons_of_ne_nil (utf8Char_ne_nil b) with ⟨x, xs, hx⟩
      rw [hx]
      rfl
  | cons a as ih =>
    cases t with
    | nil =>
      rw [utf8_nil, utf8_cons]
      rcases List.exists_cons_of_ne_nil (utf8Char_ne_nil a) with ⟨x, xs, hx⟩
      rw [hx]
      rfl
    | cons b bs =>
      rw [utf8_cons, utf8_cons]
      rcases Nat.lt_trichotomy a b with hab | hab | hab
      · rw [lexCompare_append_of_strictLower (utf8Char_strictLower hab)]
        have : ¬ b < a := by omega
        simp [lexCompare, hab, this]
      · subst hab
        rw [lexCompare_append_left]
        simp [lexCompare, ih]
      · rw [lexCompare_append_of_strictLower_gt (utf8Char_strictLower hab)]
        have : ¬ a < b := by omega
        simp [lexCompare, hab, this]

/-- Modelled from the spec: decode one UTF-8-encoded codepoint given the
first byte and the remaining bytes; returns the codepoint and the bytes
left over, or nothing on malformed input. -/
def utf8DecodeOne (b : Nat) (rest : List Nat) : Option (Nat × List Nat) :=
  if b < 0x80 then some (b, rest)
  else if b < 0xC0 then none
  else if b < 0xE0 then
    match rest with
    | b1 :: r =>
      if 0x80 ≤ b1 ∧ b1 < 0xC0 then some ((b - 0xC0) * 64 + (b1 - 0x80), r) else none
    | [] => none
  else if b < 0xF0 then
    match rest with
    | b1 :: b2 :: r =>
      if (0x80 ≤ b1 ∧ b1 < 0xC0) ∧ (0x80 ≤ b2 ∧ b2 < 0xC0) then
        some ((b - 0xE0) * 4096 + (b1 - 0x80) * 64 + (b2 - 0x80), r)
      else none
    | _ => none
  else if b < 0xF8 then
    match rest with
    | b1 :: b2 :: b3 :: r =>
      if (0x80 ≤ b1 ∧ b1 < 0xC0) ∧ (0x80 ≤ b2 ∧ b2 < 0xC0) ∧ (0x80 ≤ b3 ∧ b3 < 0xC0) then
        some ((b - 0xF0) * 262144 + (b1 - 0x80) * 4096 + (b2 - 0x80) * 64 + (b3 - 0x80), r)
      else none
    | _ => none
  else none

theorem utf8DecodeOne_length {b : Nat} {rest : List Nat} {c : Nat} {r : List Nat}
    (h : utf8DecodeOne b rest = some (c, r)) : r.length ≤ rest.length := by
  unfold utf8DecodeOne at h
  repeat' split at h
  all_goals simp_all
  all_goals omega

/-- Modelled from the spec: UTF-8 decoding of a byte sequence back to
codepoints, failing on malformed input. -/
def utf8Decode : List Nat → Option (List Nat)
  | [] => some []
  | b :: rest =>
    match _h : utf8DecodeOne b rest with
    | some (c, r) => (utf8Decode r).map (fun cs => c :: cs)
    | none => none
termination_by l => l.length
decreasing_by
  have := utf8DecodeOne_length _h
  simp only [List.length_cons]
  omega

/-- Decoding one encoded codepoint consumes exactly its encoding. -/
theorem utf8DecodeOne_char {c : Nat} (hc : c < 0x110000) (rest : List Nat) :
    ∃ b tail, utf8Char c ++ rest = b :: tail ∧ utf8DecodeOne b tail = some (c, rest) := by
  unfold utf8Char
  by_cases h1 : c < 0x80
  · refine ⟨c, rest, by simp [h1], ?_⟩
    unfold utf8DecodeOne
    simp only [if_pos h1]
  · by_cases h2 : c < 0x800
    · refine ⟨0xC0 + c / 64, (0x80 + c % 64) :: rest, by simp [h1, h2], ?_⟩
      unfold utf8DecodeOne
      have e1 : ¬ 0xC0 + c / 64 < 0x80 := by omega
      have e2 : ¬ 0xC0 + c / 64 < 0xC0 := by omega
      have e3 : 0xC0 + c / 64 < 0xE0 := by omega
      have e4 : 0x80 ≤ 0x80 + c % 64 ∧ 0x80 + c % 64 < 0xC0 := by omega
      simp only [if_neg e1, if_neg e2, if_pos e3, if_pos e4]
      have e5 : (0xC0 + c / 64 - 0xC0) * 64 + (0x80 + c % 64 - 0x80) = c := by omega
      rw [e5]
    · by_cases h3 : c < 0x10000
      · refine ⟨0xE0 + c / 4096, (0x80 + c / 64 % 64) :: (0x80 + c % 64) :: rest,
          by simp [h1, h2, h3], ?_⟩
        unfold utf8DecodeOne
        have e1 : ¬ 0xE0 + c / 4096 < 0x80 := by omega
        have e2 : ¬ 0xE0 + c / 4096 < 0xC0 := by omega
        have e3 : ¬ 0xE0 + c / 4096 < 0xE0 := by omega
        have e4 : 0xE0 + c / 4096 < 0xF0 := by omega
        have e5 : (0x80 ≤ 0x80 + c / 64 % 64 ∧ 0x80 + c / 64 % 64 < 0xC0) ∧
            0x80 ≤ 0x80 + c % 64 ∧ 0x80 + c % 64 < 0xC0 := by omega
        simp only [if_neg e1, if_neg e2, if_neg e3, if_pos e4, if_pos e5]
        have e6 : (0xE0 + c / 4096 - 0xE0) * 4096 + (0x80 + c / 64 % 64 - 0x80) * 64
            + (0x80 + c % 64 - 0x80) = c := by omega
        rw [e6]
      · refine ⟨0xF0 + c / 262144,
          (0x80 + c / 4096 % 64) :: (0x80 + c / 64 % 64) :: (0x80 + c % 64) :: rest,
          by simp [h1, h2, h3], ?_⟩
        unfold utf8DecodeOne
        have e1 : ¬ 0xF0 + c / 262144 < 0x80 := by omega
        have e2 : ¬ 0xF0 + c / 262144 < 0xC0 := by omega
        have e3 : ¬ 0xF0 + c / 262144 < 0xE0 := by omega
        have e4 : ¬ 0xF0 + c / 262144 < 0xF0 := by omega
        have e5 : 0xF0 + c / 262144 < 0xF8 := by omega
        have e6 : (0x80 ≤ 0x80 + c / 4096 % 64 ∧ 0x80 + c / 4096 % 64 < 0xC0) ∧
            (0x80 ≤ 0x80 + c / 64 % 64 ∧ 0x80 + c / 64 % 64 < 0xC0) ∧
            0x80 ≤ 0x80 + c % 64 ∧ 0x80 + c % 64 < 0xC0 := by omega
        simp only [if_neg e1, if_neg e2, if_neg e3, if_neg e4, if_pos e5, if_pos e6]
        have e7 : (0xF0 + c / 262144 - 0xF0) * 262144 + (0x80 + c / 4096 % 64 - 0x80) * 4096
            + (0x80 + c / 64 % 64 - 0x80) * 64 + (0x80 + c % 64 - 0x80) = c := by omega
        rw [e7]

/-- Decoding after encoding one codepoint peels it off and continues. -/
theorem utf8Decode_char {c : Nat} (hc : c < 0x110000) (rest : List Nat) :
    utf8Decode (utf8Char c ++ rest) = (utf8Decode rest).map (fun cs => c :: cs) := by
  rcases utf8DecodeOne_char hc rest with ⟨b, tail, hshape, hone⟩
  rw [hshape, utf8Decode.eq_def]
  repeat' split
  all_goals simp_all

/-- UTF-8 round trip on sequences of valid codepoints. -/
theorem utf8Decode_utf8 {s : List Nat} (hs : ∀ c ∈ s, c < 0x110000) :
    utf8Decode (utf8 s) = some s := by
  induction s with
  | nil =>
    rw [utf8_nil]
    simp [utf8Decode]
  | cons c cs ih =>
    have hc : c < 0x110000 := hs c (by simp)
    have hcs : ∀ x ∈ cs, x < 0x110000 := fun x hx => hs x (by simp [hx])
    rw [utf8_cons, utf8Decode_char hc, ih hcs]
    rfl

/-!
The typed key codec.  Modelled from the spec (the encoder module is not
among the source files): keys are the ordering-friendly subset of typed
values, and `encode_key` maps them to order-preserving byte sequences.
Floats are represented by their IEEE-754 double bit pattern.
-/

/-- A typed value usable in key position: 64-bit signed integer, IEEE
double (by bit pattern), boolean, text (by codepoints) and raw bytes. -/
inductive TypedKey where
  | int (i : Int)
  | float (bits : Nat)
  | bool (b : Bool)
  | text (s : List Nat)
  | bytes (bs : List Nat)
deriving DecidableEq, Repr

/-- Kind discriminator, used to restrict comparisons to same-kind pairs. -/
def TypedKey.kind : TypedKey → Nat
  | .int _ => 0
  | .float _ => 1
  | .bool _ => 2
  | .text _ => 3
  | .bytes _ => 4

/-- Representability: the integer fits in 64 signed bits, the float bit
pattern fits in 64 bits and is not a NaN (the spec leaves NaN ordering
unspecified), codepoints are Unicode scalar values, bytes are bytes. -/
def TypedKey.valid : TypedKey → Prop
  | .int i => -(2 ^ 63) ≤ i ∧ i < 2 ^ 63
  | .float bits => bits < 2 ^ 64 ∧ bits % 2 ^ 63 ≤ 0x7FF * 2 ^ 52
  | .bool _ => True
  | .text s => ∀ c ∈ s, c < 0x110000
  | .bytes bs => ∀ b ∈ bs, b < 256

instance (k : TypedKey) : Decidable k.valid := by
  cases k <;> simp only [TypedKey.valid] <;> infer_instance


/-- Modelled from the spec: the order-preserving transform on IEEE double
bit patterns — complement negative patterns entirely, set the sign bit on
non-negative ones. -/
def floatOrderMap (bits : Nat) : Nat :=
  if bits < 2 ^ 63 then bits + 2 ^ 63 else 2 ^ 64 - 1 - bits

/-- Modelled from the spec: signed-magnitude reading of an IEEE double
bit pattern, the order surrogate for semantic float comparison (both
zeros map to 0; magnitude order of non-NaN doubles is the order of the
low 63 bits). -/
def floatVal (bits : Nat) : Int :=
  if bits < 2 ^ 63 then (bits : Int) else -((bits - 2 ^ 63 : Nat) : Int)

/-- Modelled from the spec: order-preserving key encoding.  Signed
integers become 8-byte big-endian with the sign bit flipped (the biased
representation), floats go through `floatOrderMap`, booleans are one
byte, text is canonical UTF-8, raw bytes pass through unchanged. -/
def encode_key : TypedKey → Bytes
  | .int i => beBytes 8 (i + 2 ^ 63).toNat
  | .float bits => beBytes 8 (floatOrderMap bits)
  | .bool b => [if b then 1 else 0]
  | .text s => utf8 s
  | .bytes bs => bs

/-- Semantic comparison of two same-kind typed keys (the value on
cross-kind pairs is irrelevant; theorems restrict to same-kind pairs). -/
def semCompareKey : TypedKey → TypedKey → Ordering
  | .int a, .int b => intCompare a b
  | .float a, .float b => intCompare (floatVal a) (floatVal b)
  | .bool a, .bool b => boolCompare a b
  | .text a, .text b => lexCompare a b
  | .bytes a, .bytes b => lexCompare a b
  | _, _ => .eq

/-- The one float pair on which byte order and semantic order disagree:
the two IEEE zeros, semantically equal but encoded to distinct bytes. -/
def distinctZeroFloats : TypedKey → TypedKey → Prop
  | .float a, .float b => a % 2 ^ 63 = 0 ∧ b % 2 ^ 63 = 0 ∧ a ≠ b
  | _, _ => False

instance (a b : TypedKey) : Decidable (distinctZeroFloats a b) := by
  cases a <;> cases b <;> simp only [distinctZeroFloats] <;> infer_instance

theorem intCompare_shift {a b : Int} (ha1 : -(2 ^ 63) ≤ a) (ha2 : a < 2 ^ 63)
    (hb1 : -(2 ^ 63) ≤ b) (hb2 : b < 2 ^ 63) :
    natCompare (a + 2 ^ 63).toNat (b + 2 ^ 63).toNat = intCompare a b := by
  simp only [natCompare, intCompare]
  split_ifs <;> first | rfl | omega

theorem floatOrderMap_lt (bits : Nat) (h : bits < 2 ^ 64) :
    floatOrderMap bits < 2 ^ 64 := by
  simp only [floatOrderMap]
  split_ifs <;> omega

theorem floatOrderMap_compare {a b : Nat} (ha : a < 2 ^ 64) (hb : b < 2 ^ 64)
    (hz : ¬ (a % 2 ^ 63 = 0 ∧ b % 2 ^ 63 = 0 ∧ a ≠ b)) :
    natCompare (floatOrderMap a) (floatOrderMap b) = intCompare (floatVal a) (floatVal b) := by
  have hza : a % 2 ^ 63 = if a < 2 ^ 63 then a else a - 2 ^ 63 := by
    split_ifs <;> omega
  have hzb : b % 2 ^ 63 = if b < 2 ^ 63 then b else b - 2 ^ 63 := by
    split_ifs <;> omega
  by_cases hsa : a < 2 ^ 63 <;> by_cases hsb : b < 2 ^ 63
  · rw [floatOrderMap, floatOrderMap, floatVal, floatVal, if_pos hsa, if_pos hsb,
      if_pos hsa, if_pos hsb]
    rw [hza, hzb, if_pos hsa, if_pos hsb] at hz
    simp only [natCompare, intCompare]
    split_ifs <;> first | rfl | omega
  · rw [floatOrderMap, floatOrderMap, floatVal, floatVal, if_pos hsa, if_neg hsb,
      if_pos hsa, if_neg hsb]
    rw [hza, hzb, if_pos hsa, if_neg hsb] at hz
    simp only [natCompare, intCompare]
    split_ifs <;> first | rfl | omega
  · rw [floatOrderMap, floatOrderMap, floatVal, floatVal, if_neg hsa, if_pos hsb,
      if_neg hsa, if_pos hsb]
    rw [hza, hzb, if_neg hsa, if_pos hsb] at hz
    simp only [natCompare, intCompare]
    split_ifs <;> first | rfl | omega
  · rw [floatOrderMap, floatOrderMap, floatVal, floatVal, if_neg hsa, if_neg hsb,
      if_neg hsa, if_neg hsb]
    rw [hza, hzb, if_neg hsa, if_neg hsb] at hz
    simp only [natCompare, intCompare]
    split_ifs <;> first | rfl | omega

/-- Order preservation of the key encoding on same-kind representable
keys, excluding only the pair of distinct IEEE zeros. -/
theorem encode_key_order {a b : TypedKey} (ha : a.valid) (hb : b.valid)
    (hk : a.kind = b.kind) (hz : ¬ distinctZeroFloats a b) :
    lexCompare (encode_key a) (encode_key b) = semCompareKey a b := by
  cases a <;> cases b <;> simp only [TypedKey.kind] at hk <;> try omega
  case int.int a b =>
    simp only [TypedKey.valid] at ha hb
    simp only [encode_key, semCompareKey]
    have h256 : (256 : Nat) ^ 8 = 2 ^ 64 := by norm_num
    have hA : (a + 2 ^ 63).toNat < 256 ^ 8 := by rw [h256]; omega
    have hB : (b + 2 ^ 63).toNat < 256 ^ 8 := by rw [h256]; omega
    rw [lexCompare_beBytes hA hB, intCompare_shift ha.1 ha.2 hb.1 hb.2]
  case float.float a b =>
    simp only [TypedKey.valid] at ha hb
    simp only [encode_key, semCompareKey]
    simp only [distinctZeroFloats] at hz
    have h256 : (256 : Nat) ^ 8 = 2 ^ 64 := by norm_num
    have hA : floatOrderMap a < 256 ^ 8 := by rw [h256]; exact floatOrderMap_lt a ha.1
    have hB : floatOrderMap b < 256 ^ 8 := by rw [h256]; exact floatOrderMap_lt b hb.1
    rw [lexCompare_beBytes hA hB, floatOrderMap_compare ha.1 hb.1 hz]
  case bool.bool a b =>
    cases a <;> cases b <;> simp [encode_key, semCompareKey, lexCompare, boolCompare]
  case text.text a b =>
    simp only [encode_key, semCompareKey]
    exact lexCompare_utf8 a b
  case bytes.bytes a b =>
    simp only [encode_key, semCompareKey]

/-!
The typed value codec.  Modelled from the spec: an encoded value is a
type tag byte followed by a type-specific payload; fixed-shape kinds
have fixed width, variable-length kinds run to the end of the sequence,
and opaque values delegate to the pluggable serializer.
-/

/-- The pluggable GenericSerializer collaborator (pickle in the source):
dumps an opaque object to bytes and loads it back, possibly failing. -/
structure Serializer (Obj : Type) where
  dumps : Obj → Bytes
  loads : Bytes → Option Obj

/-- A typed value in value position: the key kinds plus opaque objects
handled by the serializer. -/
inductive TypedValue (Obj : Type) where
  | int (i : Int)
  | float (bits : Nat)
  | bool (b : Bool)
  | text (s : List Nat)
  | bytes (bs : List Nat)
  | any (o : Obj)
deriving DecidableEq, Repr

/-- Representability of a typed value (same numeric and codepoint bounds
as for keys; opaque values are unconstrained here, their round trip is a
property of the serializer). -/
def TypedValue.valid {Obj : Type} : TypedValue Obj → Prop
  | .int i => -(2 ^ 63) ≤ i ∧ i < 2 ^ 63
  | .float bits => bits < 2 ^ 64
  | .bool _ => True
  | .text s => ∀ c ∈ s, c < 0x110000
  | .bytes _ => True
  | .any _ => True

instance {Obj : Type} (v : TypedValue Obj) : Decidable v.valid := by
  cases v <;> simp only [TypedValue.valid] <;> infer_instance

/-- The Python-exception error channel of the wrapped program: every
failure surfaces as an exception carrying a message string. -/
inductive PyErr where
  | exception (msg : String)
deriving DecidableEq, Repr

/-- The error raised by a point lookup of an absent key
(rdict.rs line 193). -/
def keyNotFoundErr : PyErr := .exception "key not found"

/-- The error raised by any operation on a closed Rdict
(rdict.rs, every method's else branch). -/
def dbClosedErr : PyErr := .exception "DB already closed"

/-- Modelled from the spec: the CorruptEncoding failure of value
decoding (unrecognized tag or malformed payload). -/
def corruptEncodingErr : PyErr := .exception "corrupt encoding"

/-- Modelled from the spec: tagged value encoding.  Tags 1..6 enumerate
int, float, bool, text, raw bytes and opaque; fixed-width payloads for
the numeric kinds, verbatim payloads for the variable-length kinds. -/
def encode_value {Obj : Type} (ser : Serializer Obj) : TypedValue Obj → Bytes
  | .int i => 1 :: beBytes 8 (i + 2 ^ 63).toNat
  | .float bits => 2 :: beBytes 8 bits
  | .bool b => 3 :: [if b then 1 else 0]
  | .text s => 4 :: utf8 s
  | .bytes bs => 5 :: bs
  | .any o => 6 :: ser.dumps o

/-- Modelled from the spec: tagged value decoding, failing with
CorruptEncoding on an unrecognized tag or malformed payload. -/
def decode_value {Obj : Type} (ser : Serializer Obj) : Bytes → Except PyErr (TypedValue Obj)
  | [] => .error corruptEncodingErr
  | tag :: payload =>
    if tag = 1 then
      if payload.length = 8 then .ok (.int ((beVal payload : Int) - 2 ^ 63))
      else .error corruptEncodingErr
    else if tag = 2 then
      if payload.length = 8 then .ok (.float (beVal payload))
      else .error corruptEncodingErr
    else if tag = 3 then
      match payload with
      | [0] => .ok (.bool false)
      | [1] => .ok (.bool true)
      | _ => .error corruptEncodingErr
    else if tag = 4 then
      match utf8Decode payload with
      | some s => .ok (.text s)
      | none => .error corruptEncodingErr
    else if tag = 5 then .ok (.bytes payload)
    else if tag = 6 then
      match ser.loads payload with
      | some o => .ok (.any o)
      | none => .error corruptEncodingErr
    else .error corruptEncodingErr

/-- Round trip of the value codec: decoding an encoding returns the
original value, provided the serializer round-trips opaque objects. -/
theorem decode_encode_value {Obj : Type} (ser : Serializer Obj)
    (hser : ∀ o : Obj, ser.loads (ser.dumps o) = some o)
    {v : TypedValue Obj} (hv : v.valid) :
    decode_value ser (encode_value ser v) = .ok v := by
  cases v with
  | int i =>
    simp only [TypedValue.valid] at hv
    have h256 : (256 : Nat) ^ 8 = 2 ^ 64 := by norm_num
    have hlt : (i + 2 ^ 63).toNat < 256 ^ 8 := by rw [h256]; omega
    simp only [encode_value, decode_value, beBytes_length, if_pos, if_true, ite_true,
      beVal_beBytes hlt]
    have : ((i + 2 ^ 63).toNat : Int) - 2 ^ 63 = i := by omega
    rw [this]
  | float bits =>
    simp only [TypedValue.valid] at hv
    have h256 : (256 : Nat) ^ 8 = 2 ^ 64 := by norm_num
    have hlt : bits < 256 ^ 8 := by rw [h256]; omega
    simp only [encode_value, decode_value, beBytes_length, beVal_beBytes hlt]
    norm_num
  | bool b => cases b <;> rfl
  | text s =>
    simp only [TypedValue.valid] at hv
    simp only [encode_value, decode_value, utf8Decode_utf8 hv]
    norm_num
  | bytes bs => rfl
  | any o =>
    simp only [encode_value, decode_value, hser o]
    norm_num

/-!
Models of the option wrappers in options.rs.
-/

/-- The Python-side WriteOptions wrapper (options.rs lines 14-33):
six boolean flags. -/
structure WriteOptionsPy where
  sync : Bool
  disable_wal : Bool
  ignore_missing_column_families : Bool
  no_slowdown : Bool
  low_pri : Bool
  memtable_insert_hint_per_batch : Bool
deriving DecidableEq, Repr

/-- WriteOptionsPy::new (options.rs lines 669-679): all flags false. -/
def WriteOptionsPy.new : WriteOptionsPy :=
  ⟨false, false, false, false, false, false⟩

/-- The engine-side rocksdb::WriteOptions, as far as the wrapper sets
it: the same six flags, each defaulting to false. -/
structure WriteOptions where
  sync : Bool
  disable_wal : Bool
  ignore_missing_column_families : Bool
  no_slowdown : Bool
  low_pri : Bool
  memtable_insert_hint_per_batch : Bool
deriving DecidableEq, Repr

/-- rocksdb::WriteOptions::default(): all six flags false. -/
def WriteOptions.default : WriteOptions :=
  ⟨false, false, false, false, false, false⟩

def WriteOptions.set_sync (o : WriteOptions) (v : Bool) : WriteOptions :=
  {o with sync := v}

def WriteOptions.set_disable_wal (o : WriteOptions) (v : Bool) : WriteOptions :=
  {o with disable_wal := v}

def WriteOptions.set_ignore_missing_column_families (o : WriteOptions) (v : Bool) :
    WriteOptions :=
  {o with ignore_missing_column_families := v}

def WriteOptions.set_no_slowdown (o : WriteOptions) (v : Bool) : WriteOptions :=
  {o with no_slowdown := v}

def WriteOptions.set_low_pri (o : WriteOptions) (v : Bool) : WriteOptions :=
  {o with low_pri := v}

def WriteOptions.set_memtable_insert_hint_per_batch (o : WriteOptions) (v : Bool) :
    WriteOptions :=
  {o with memtable_insert_hint_per_batch := v}

/-- From<&WriteOptionsPy> for WriteOptions (options.rs lines 739-750):
start from the default and set each flag from the wrapper. -/
def writeOptionsFromPy (w : WriteOptionsPy) : WriteOptions :=
  ((((((WriteOptions.default.set_sync w.sync).set_disable_wal
    w.disable_wal).set_ignore_missing_column_families
    w.ignore_missing_column_families).set_low_pri
    w.low_pri).set_memtable_insert_hint_per_batch
    w.memtable_insert_hint_per_batch).set_no_slowdown w.no_slowdown)

/-- The FlushOptions wrapper (options.rs lines 35-40). -/
structure FlushOptionsPy where
  wait : Bool
deriving DecidableEq, Repr

/-- FlushOptionsPy::new (options.rs lines 753-757): wait defaults true. -/
def FlushOptionsPy.new : FlushOptionsPy := ⟨true⟩

/-- The engine-side read options, restricted to the fields the wrapper
can set (options.rs lines 772-961).  The field written by the source's
set_prefix_same_as_start setter is named samePfxAsStart here. -/
structure ReadOptions where
  fillCache : Bool
  iterateUpperBound : Option Bytes
  iterateLowerBound : Option Bytes
  samePfxAsStart : Bool
  totalOrderSeek : Bool
  maxSkippableInternalKeys : Nat
  backgroundPurgeOnIteratorCleanup : Bool
  ignoreRangeDeletions : Bool
  verifyChecksums : Bool
  readaheadSize : Nat
  tailing : Bool
  pinData : Bool
deriving DecidableEq, Repr

/-- rocksdb::ReadOptions::default(), per the defaults documented on the
setters in options.rs. -/
def ReadOptions.default : ReadOptions :=
  { fillCache := true
    iterateUpperBound := none
    iterateLowerBound := none
    samePfxAsStart := false
    totalOrderSeek := false
    maxSkippableInternalKeys := 0
    backgroundPurgeOnIteratorCleanup := false
    ignoreRangeDeletions := false
    verifyChecksums := true
    readaheadSize := 0
    tailing := false
    pinData := false }

/-- The Python-side ReadOptions wrapper (options.rs line 43): an
optional engine read-options object, empty once consumed. -/
structure ReadOptionsPy where
  inner : Option ReadOptions
deriving DecidableEq, Repr

/-- ReadOptionsPy::default (options.rs lines 774-777): fresh inner. -/
def ReadOptionsPy.default : ReadOptionsPy := ⟨some ReadOptions.default⟩

/-- The error raised by every ReadOptionsPy setter once the inner
engine object has been taken out (options.rs, each setter's else
branch). -/
def readOptionsConsumedErr : PyErr :=
  .exception "this `ReadOptions` instance is already consumed, create a new ReadOptions()"

def ReadOptionsPy.fill_cache (r : ReadOptionsPy) (v : Bool) : Except PyErr ReadOptionsPy :=
  match r.inner with
  | some o => .ok ⟨some {o with fillCache := v}⟩
  | none => .error readOptionsConsumedErr

/-- options.rs lines 796-804: the upper iterator bound is encoded with
encode_value, the value encoder. -/
def ReadOptionsPy.set_iterate_upper_bound {Obj : Type} (ser : Serializer Obj)
    (r : ReadOptionsPy) (key : TypedValue Obj) : Except PyErr ReadOptionsPy :=
  match r.inner with
  | some o => .ok ⟨some {o with iterateUpperBound := some (encode_value ser key)}⟩
  | none => .error readOptionsConsumedErr

/-- options.rs lines 806-815: the lower iterator bound is encoded with
encode_value, the value encoder. -/
def ReadOptionsPy.set_iterate_lower_bound {Obj : Type} (ser : Serializer Obj)
    (r : ReadOptionsPy) (key : TypedValue Obj) : Except PyErr ReadOptionsPy :=
  match r.inner with
  | some o => .ok ⟨some {o with iterateLowerBound := some (encode_value ser key)}⟩
  | none => .error readOptionsConsumedErr

/-- Models options.rs set_prefix_same_as_start. -/
def ReadOptionsPy.set_same_pfx_as_start (r : ReadOptionsPy) (v : Bool) :
    Except PyErr ReadOptionsPy :=
  match r.inner with
  | some o => .ok ⟨some {o with samePfxAsStart := v}⟩
  | none => .error readOptionsConsumedErr

def ReadOptionsPy.set_total_order_seek (r : ReadOptionsPy) (v : Bool) :
    Except PyErr ReadOptionsPy :=
  match r.inner with
  | some o => .ok ⟨some {o with totalOrderSeek := v}⟩
  | none => .error readOptionsConsumedErr

def ReadOptionsPy.set_max_skippable_internal_keys (r : ReadOptionsPy) (num : Nat) :
    Except PyErr ReadOptionsPy :=
  match r.inner with
  | some o => .ok ⟨some {o with maxSkippableInternalKeys := num}⟩
  | none => .error readOptionsConsumedErr

def ReadOptionsPy.set_background_purge_on_interator_cleanup (r : ReadOptionsPy) (v : Bool) :
    Except PyErr ReadOptionsPy :=
  match r.inner with
  | some o => .ok ⟨some {o with backgroundPurgeOnIteratorCleanup := v}⟩
  | none => .error readOptionsConsumedErr

def ReadOptionsPy.set_ignore_range_deletions (r : ReadOptionsPy) (v : Bool) :
    Except PyErr ReadOptionsPy :=
  match r.inner with
  | some o => .ok ⟨some {o with ignoreRangeDeletions := v}⟩
  | none => .error readOptionsConsumedErr

def ReadOptionsPy.set_verify_checksums (r : ReadOptionsPy) (v : Bool) :
    Except PyErr ReadOptionsPy :=
  match r.inner with
  | some o => .ok ⟨some {o with verifyChecksums := v}⟩
  | none => .error readOptionsConsumedErr

def ReadOptionsPy.set_readahead_size (r : ReadOptionsPy) (v : Nat) :
    Except PyErr ReadOptionsPy :=
  match r.inner with
  | some o => .ok ⟨some {o with readaheadSize := v}⟩
  | none => .error readOptionsConsumedErr

def ReadOptionsPy.set_tailing (r : ReadOptionsPy) (v : Bool) :
    Except PyErr ReadOptionsPy :=
  match r.inner with
  | some o => .ok ⟨some {o with tailing := v}⟩
  | none => .error readOptionsConsumedErr

def ReadOptionsPy.set_pin_data (r : ReadOptionsPy) (v : Bool) :
    Except PyErr ReadOptionsPy :=
  match r.inner with
  | some o => .ok ⟨some {o with pinData := v}⟩
  | none => .error readOptionsConsumedErr

/-- Conversion of the wrapper to an engine read-options object, used
when an Rdict stores its per-instance defaults.  The conversion itself
lives outside the two source files; modelled as reading the inner
object when present and the engine default otherwise. -/
def readOptionsFromPy (r : ReadOptionsPy) : ReadOptions :=
  r.inner.getD ReadOptions.default

/-- The Python-side PlainTableFactoryOptions wrapper (options.rs lines
69-82).  The f64 ratio field is carried opaquely by bit pattern. -/
structure PlainTableFactoryOptionsPy where
  user_key_length : Nat
  bloom_bits_per_key : Int
  hash_table_ratio : Nat
  index_sparseness : Nat
deriving DecidableEq, Repr

/-- The engine-side rocksdb::PlainTableFactoryOptions fields. -/
structure PlainTableFactoryOptions where
  user_key_length : Nat
  bloom_bits_per_key : Int
  hash_table_ratio : Nat
  index_sparseness : Nat
deriving DecidableEq, Repr

/-- From<&PlainTableFactoryOptionsPy> for PlainTableFactoryOptions
(options.rs lines 1227-1241): user_key_length gains one extra byte for
the python object type tag whenever it is positive (u32 arithmetic);
the other fields are forwarded verbatim. -/
def plainTableFromPy (p : PlainTableFactoryOptionsPy) : PlainTableFactoryOptions :=
  { user_key_length :=
      if 0 < p.user_key_length then (p.user_key_length + 1) % 2 ^ 32 else 0
    bloom_bits_per_key := p.bloom_bits_per_key
    hash_table_ratio := p.hash_table_ratio
    index_sparseness := p.index_sparseness }

/-!
Model of the engine state and the Rdict pyclass (rdict.rs).
-/

/-- Association-list model of one column family's byte map; a put
prepends, so the first match is the current value. -/
abbrev Store := List (Bytes × Bytes)

def storeGet (s : Store) (k : Bytes) : Option Bytes :=
  (s.find? (fun p => p.1 == k)).map (fun p => p.2)

def storePut (s : Store) (k v : Bytes) : Store := (k, v) :: s

def storeDel (s : Store) (k : Bytes) : Store :=
  s.filter (fun p => !(p.1 == k))

theorem storeGet_storePut (s : Store) (k v : Bytes) :
    storeGet (storePut s k v) k = some v := by
  simp [storeGet, storePut, List.find?]

/-- Look up a named column family. -/
def findCfStore : List (String × Store) → String → Option Store
  | [], _ => none
  | (n, st) :: rest, name => if n = name then some st else findCfStore rest name

/-- Write through a named column family, failing if it does not exist. -/
def putCfStores : List (String × Store) → String → Bytes → Bytes →
    Option (List (String × Store))
  | [], _, _, _ => none
  | (n, st) :: rest, name, k, v =>
    if n = name then some ((n, storePut st k v) :: rest)
    else (putCfStores rest name k v).map (fun rest2 => (n, st) :: rest2)

/-- Delete through a named column family, failing if it does not exist. -/
def delCfStores : List (String × Store) → String → Bytes →
    Option (List (String × Store))
  | [], _, _ => none
  | (n, st) :: rest, name, k =>
    if n = name then some ((n, storeDel st k) :: rest)
    else (delCfStores rest name k).map (fun rest2 => (n, st) :: rest2)

/-- Remove a named column family, failing if it does not exist. -/
def dropCfStores : List (String × Store) → String → Option (List (String × Store))
  | [], _ => none
  | (n, st) :: rest, name =>
    if n = name then some rest
    else (dropCfStores rest name).map (fun rest2 => (n, st) :: rest2)

theorem findCfStore_putCfStores {cfs cfs2 : List (String × Store)} {name : String}
    {k v : Bytes} (h : putCfStores cfs name k v = some cfs2) :
    ∃ st, findCfStore cfs name = some st ∧
      findCfStore cfs2 name = some (storePut st k v) := by
  induction cfs generalizing cfs2 with
  | nil => exact Option.noConfusion h
  | cons p rest ih =>
    obtain ⟨n, st⟩ := p
    by_cases hn : n = name
    · subst hn
      simp only [putCfStores, if_pos rfl] at h
      cases h
      exact ⟨st, by simp [findCfStore], by simp [findCfStore]⟩
    · simp only [putCfStores, if_neg hn] at h
      cases hrec : putCfStores rest name k v with
      | none => rw [hrec] at h; exact Option.noConfusion h
      | some rest2 =>
        rw [hrec] at h
        simp only [Option.map_some'] at h
        cases h
        rcases ih hrec with ⟨st2, h1, h2⟩
        exact ⟨st2, by simp [findCfStore, hn, h1], by simp [findCfStore, hn, h2]⟩

/-- Model of the shared rocksdb::DB engine state: the default column
family, the named column families, and an abstract key_may_exist
oracle standing for the engine's bloom/memtable pre-check. -/
structure DB where
  store : Store
  cfs : List (String × Store)
  mayExist : Option String → Bytes → Bool

/-- A point read through the engine, through a column family when one
is selected (get_pinned_cf_opt versus get_pinned_opt). -/
def dbGet (db : DB) (cf : Option String) (k : Bytes) : Option Bytes :=
  match cf with
  | none => storeGet db.store k
  | some name =>
    match findCfStore db.cfs name with
    | some st => storeGet st k
    | none => none

/-- A point write through the engine (put_cf_opt versus put_opt);
fails when the selected column family does not exist. -/
def dbPut (db : DB) (cf : Option String) (k v : Bytes) : Option DB :=
  match cf with
  | none => some {db with store := storePut db.store k v}
  | some name => (putCfStores db.cfs name k v).map (fun cfs2 => {db with cfs := cfs2})

/-- A point delete through the engine (delete_cf_opt versus delete_opt). -/
def dbDel (db : DB) (cf : Option String) (k : Bytes) : Option DB :=
  match cf with
  | none => some {db with store := storeDel db.store k}
  | some name => (delCfStores db.cfs name k).map (fun cfs2 => {db with cfs := cfs2})

theorem dbGet_dbPut {db db2 : DB} {cf : Option String} {k v : Bytes}
    (h : dbPut db cf k v = some db2) : dbGet db2 cf k = some v := by
  cases cf with
  | none =>
    simp only [dbPut] at h
    cases h
    simp [dbGet, storeGet_storePut]
  | some name =>
    simp only [dbPut] at h
    cases hput : putCfStores db.cfs name k v with
    | none => rw [hput] at h; exact Option.noConfusion h
    | some cfs2 =>
      rw [hput] at h
      simp only [Option.map_some'] at h
      cases h
      rcases findCfStore_putCfStores hput with ⟨st, _, h2⟩
      simp [dbGet, h2, storeGet_storePut]

/-- One step of an Rdict teardown, as observed by the engine: a
memtable flush (column-family-targeted or default), the release of the
partition (column family) reference, and the release of the shared
engine-handle reference. -/
inductive TeardownEvent where
  | flush (cf : Bool)
  | dropCF
  | dropDB
deriving DecidableEq, Repr

/-- Model of the Rdict pyclass (rdict.rs lines 38-48).  The shared
Rc<RefCell<DB>> handle is an optional token (None once closed); the
engine state itself is passed to each operation explicitly, since every
clone of the handle designates the same engine.  The pickle loads/dumps
pair is carried as the serializer. -/
structure Rdict (Obj : Type) where
  db : Option Unit
  write_opt : WriteOptions
  flush_opt : FlushOptionsPy
  read_opt : ReadOptions
  ser : Serializer Obj
  write_opt_py : WriteOptionsPy
  read_opt_py : ReadOptionsPy
  column_family : Option String

/-- A freshly opened Rdict (rdict.rs lines 116-130): live handle,
default options, no column family selected. -/
def Rdict.opened {Obj : Type} (ser : Serializer Obj) : Rdict Obj :=
  { db := some ()
    write_opt := writeOptionsFromPy WriteOptionsPy.new
    flush_opt := FlushOptionsPy.new
    read_opt := readOptionsFromPy ReadOptionsPy.default
    ser := ser
    write_opt_py := WriteOptionsPy.new
    read_opt_py := ReadOptionsPy.default
    column_family := none }

/-- The single-key path of __getitem__ (rdict.rs lines 175-201):
absent keys raise the key-not-found exception, present values are
decoded, a closed handle raises. -/
def Rdict.getitem {Obj : Type} (r : Rdict Obj) (db : DB) (key : TypedKey) :
    Except PyErr (TypedValue Obj) :=
  match r.db with
  | some _ =>
    let kb := encode_key key
    match dbGet db r.column_family kb with
    | none => .error keyNotFoundErr
    | some slice => decode_value r.ser slice
  | none => .error dbClosedErr

/-- Decode a list of optional engine results, keeping None for absent
keys and propagating the first decode failure (the loop in
get_batch_inner, rdict.rs lines 630-638). -/
def decodeOptList {Obj : Type} (ser : Serializer Obj) :
    List (Option Bytes) → Except PyErr (List (Option (TypedValue Obj)))
  | [] => .ok []
  | none :: rest => (decodeOptList ser rest).map (fun l => none :: l)
  | some bs :: rest =>
    match decode_value ser bs with
    | .ok v => (decodeOptList ser rest).map (fun l => some v :: l)
    | .error e => .error e

/-- get_batch_inner (rdict.rs lines 608-640): encode every key, multi
get, decode each hit, keep None for each miss. -/
def get_batch_inner {Obj : Type} (ser : Serializer Obj) (db : DB)
    (cf : Option String) (keys : List TypedKey) :
    Except PyErr (List (Option (TypedValue Obj))) :=
  let keys_batch := keys.map encode_key
  decodeOptList ser (keys_batch.map (dbGet db cf))

/-- The batch path of __getitem__ (rdict.rs lines 177-183). -/
def Rdict.getBatch {Obj : Type} (r : Rdict Obj) (db : DB) (keys : List TypedKey) :
    Except PyErr (List (Option (TypedValue Obj))) :=
  match r.db with
  | some _ => get_batch_inner r.ser db r.column_family keys
  | none => .error dbClosedErr

/-- __setitem__ (rdict.rs lines 203-220). -/
def Rdict.setitem {Obj : Type} (r : Rdict Obj) (db : DB) (key : TypedKey)
    (value : TypedValue Obj) : Except PyErr DB :=
  match r.db with
  | some _ =>
    let kb := encode_key key
    let vb := encode_value r.ser value
    match dbPut db r.column_family kb vb with
    | some db2 => .ok db2
    | none => .error (.exception "engine error: invalid column family")
  | none => .error dbClosedErr

/-- __delitem__ (rdict.rs lines 252-268). -/
def Rdict.delitem {Obj : Type} (r : Rdict Obj) (db : DB) (key : TypedKey) :
    Except PyErr DB :=
  match r.db with
  | some _ =>
    let kb := encode_key key
    match dbDel db r.column_family kb with
    | some db2 => .ok db2
    | none => .error (.exception "engine error: invalid column family")
  | none => .error dbClosedErr

/-- __contains__ (rdict.rs lines 222-250): the key_may_exist pre-check,
then a confirming get on a positive answer, false directly on a
negative answer. -/
def Rdict.contains {Obj : Type} (r : Rdict Obj) (db : DB) (key : TypedKey) :
    Except PyErr Bool :=
  match r.db with
  | some _ =>
    let kb := encode_key key
    let may := db.mayExist r.column_family kb
    if may then
      match dbGet db r.column_family kb with
      | some _ => .ok true
      | none => .ok false
    else .ok false
  | none => .error dbClosedErr

/-- flush (rdict.rs lines 439-456); the engine-side flush outcome is
abstracted as success, only the closed-handle check is modelled. -/
def Rdict.flushOp {Obj : Type} (r : Rdict Obj) (_wait : Bool) : Except PyErr Unit :=
  match r.db with
  | some _ => .ok ()
  | none => .error dbClosedErr

/-- iter (rdict.rs lines 314-325); the RdictIter construction lives in
crate::iter, outside the source files, so only the closed-handle check
is modelled and a successful construction is abstracted to a unit. -/
def Rdict.iterOp {Obj : Type} (r : Rdict Obj) (_read_opt : ReadOptionsPy) :
    Except PyErr Unit :=
  match r.db with
  | some _ => .ok ()
  | none => .error dbClosedErr

/-- get_column_family (rdict.rs lines 507-529): a new Rdict sharing the
same engine handle, carrying the named partition reference and copies
of the per-instance options. -/
def Rdict.get_column_family {Obj : Type} (r : Rdict Obj) (db : DB) (name : String) :
    Except PyErr (Rdict Obj) :=
  match r.db with
  | some h =>
    match findCfStore db.cfs name with
    | none =>
      .error (.exception ("column name " ++ name ++ " does not exist, use create_cf to creat it"))
    | some _ =>
      .ok { db := some h
            write_opt := writeOptionsFromPy r.write_opt_py
            flush_opt := r.flush_opt
            read_opt := readOptionsFromPy r.read_opt_py
            ser := r.ser
            column_family := some name
            write_opt_py := r.write_opt_py
            read_opt_py := r.read_opt_py }
  | none => .error dbClosedErr

/-- create_column_family (rdict.rs lines 468-483): create through the
engine, then return get_column_family of the new name. -/
def Rdict.create_column_family {Obj : Type} (r : Rdict Obj) (db : DB) (name : String) :
    Except PyErr (Rdict Obj × DB) :=
  match r.db with
  | some _ =>
    match findCfStore db.cfs name with
    | some _ => .error (.exception "engine error: column family already exists")
    | none =>
      let db2 : DB := {db with cfs := db.cfs ++ [(name, [])]}
      (r.get_column_family db2 name).map (fun r2 => (r2, db2))
  | none => .error dbClosedErr

/-- drop_column_family (rdict.rs lines 486-496). -/
def Rdict.drop_column_family {Obj : Type} (r : Rdict Obj) (db : DB) (name : String) :
    Except PyErr DB :=
  match r.db with
  | some _ =>
    match dropCfStores db.cfs name with
    | some cfs2 => .ok {db with cfs := cfs2}
    | none => .error (.exception "engine error: column family not found")
  | none => .error dbClosedErr

/-- ingest_external_file (rdict.rs lines 538-558); the engine-side
ingestion outcome is abstracted as success, only the closed-handle
check is modelled. -/
def Rdict.ingest_external_file {Obj : Type} (r : Rdict Obj) (_paths : List String) :
    Except PyErr Unit :=
  match r.db with
  | some _ => .ok ()
  | none => .error dbClosedErr

/-- close (rdict.rs lines 571-590): when the handle is live, flush the
memtable (through the column family when one is selected), then drop
the column-family reference, then drop the engine-handle reference, and
report the flush outcome (abstracted as success); when the handle is
already gone, raise and change nothing. -/
def Rdict.close {Obj : Type} (r : Rdict Obj) :
    Rdict Obj × List TeardownEvent × Except PyErr Unit :=
  match r.db with
  | some _ =>
    ({r with column_family := none, db := none},
     TeardownEvent.flush r.column_family.isSome
       :: ((if r.column_family.isSome then [TeardownEvent.dropCF] else [])
         ++ [TeardownEvent.dropDB]),
     .ok ())
  | none => (r, [], .error dbClosedErr)

/-- The Drop impl (rdict.rs lines 642-659): flush if the handle is
still live, then always take and drop the column-family reference
first, then take and drop the handle. -/
def Rdict.dropTrace {Obj : Type} (r : Rdict Obj) : List TeardownEvent :=
  (if r.db.isSome then [TeardownEvent.flush r.column_family.isSome] else [])
    ++ (if r.column_family.isSome then [TeardownEvent.dropCF] else [])
    ++ (if r.db.isSome then [TeardownEvent.dropDB] else [])

/-- Whether a teardown event is a memtable flush. -/
def TeardownEvent.isFlush : TeardownEvent → Prop
  | .flush _ => True
  | _ => False

/-- Temporal well-formedness of a teardown trace: wherever the
engine-handle reference is released, a memtable flush strictly precedes
it and no partition-reference release (nor second handle release)
follows it; and every partition-reference release is itself preceded by
the flush. -/
def TeardownOrdered (tr : List TeardownEvent) : Prop :=
  (∀ pre post, tr = pre ++ TeardownEvent.dropDB :: post →
    (∃ e ∈ pre, e.isFlush) ∧
    TeardownEvent.dropDB ∉ post ∧ TeardownEvent.dropCF ∉ post) ∧
  (∀ pre post, tr = pre ++ TeardownEvent.dropCF :: post →
    ∃ e ∈ pre, e.isFlush)

theorem teardownOrdered_nil : TeardownOrdered [] := by
  constructor <;> intro pre post h <;> simp at h

theorem teardownOrdered_flush_dropDB (c : Bool) :
    TeardownOrdered [TeardownEvent.flush c, TeardownEvent.dropDB] := by
  constructor
  · intro pre post h
    rcases pre with _ | ⟨a, _ | ⟨b, pre⟩⟩
    · simp at h
    · simp only [List.cons_append, List.nil_append, List.cons.injEq] at h
      obtain ⟨ha, _, hp⟩ := h
      subst ha
      subst hp
      exact ⟨⟨TeardownEvent.flush c, by simp, trivial⟩, by simp, by simp⟩
    · simp at h
  · intro pre post h
    rcases pre with _ | ⟨a, _ | ⟨b, pre⟩⟩ <;> simp at h

theorem teardownOrdered_flush_dropCF_dropDB (c : Bool) :
    TeardownOrdered [TeardownEvent.flush c, TeardownEvent.dropCF, TeardownEvent.dropDB] := by
  constructor
  · intro pre post h
    rcases pre with _ | ⟨a, _ | ⟨b, _ | ⟨d, pre⟩⟩⟩
    · simp at h
    · simp at h
    · simp only [List.cons_append, List.nil_append, List.cons.injEq] at h
      obtain ⟨ha, hb, _, hp⟩ := h
      subst ha
      subst hp
      exact ⟨⟨TeardownEvent.flush c, by simp, trivial⟩, by simp, by simp⟩
    · simp at h
  · intro pre post h
    rcases pre with _ | ⟨a, _ | ⟨b, _ | ⟨d, pre⟩⟩⟩
    · simp at h
    · simp only [List.cons_append, List.nil_append, List.cons.injEq] at h
      obtain ⟨ha, _, _⟩ := h
      subst ha
      exact ⟨TeardownEvent.flush c, by simp, trivial⟩
    · simp at h
    · simp at h

/-!
Concrete instances used by witnesses and counterexamples.
-/

/-- A trivial serializer on the unit type; it round-trips. -/
def trivSer : Serializer Unit := ⟨fun _ => [], fun _ => some ()⟩

/-- An engine with nothing stored and a pre-check oracle that always
answers maybe. -/
def emptyDB : DB := { store := [], cfs := [], mayExist := fun _ _ => true }

/-- Errors never returned by decoding: every decode failure is the
corrupt-encoding error. -/
theorem decode_value_error_corrupt {Obj : Type} (ser : Serializer Obj) (bs : Bytes)
    (e : PyErr) (h : decode_value ser bs = .error e) : e = corruptEncodingErr := by
  cases bs with
  | nil =>
    simp only [decode_value] at h
    cases h
    rfl
  | cons tag payload =>
    simp only [decode_value] at h
    repeat' split at h
    all_goals simp_all

/-!
Claim theorems.
-/

/-- C1: whenever an Rdict releases its engine handle — via an explicit
close() or via the implicit Drop teardown — a memtable flush is issued
first, then the partition (column-family) reference is dropped, and
only after that is the shared engine-handle reference dropped; the
engine handle is never released while that object still holds a
partition reference, on every teardown path.  The hypothesis is the
structural invariant (maintained by every constructor of Rdict in the
source) that a closed Rdict holds no column-family reference. -/
theorem c1_teardown_ordering {Obj : Type} (r : Rdict Obj)
    (hinv : r.db = none → r.column_family = none) :
    TeardownOrdered (r.close).2.1 ∧ TeardownOrdered r.dropTrace ∧
    (r.close).1.db = none ∧ (r.close).1.column_family = none := by
  cases hdb : r.db with
  | none =>
    have hcf := hinv hdb
    refine ⟨?_, ?_, ?_, ?_⟩
    · simp only [Rdict.close, hdb]
      exact teardownOrdered_nil
    · simp only [Rdict.dropTrace, hdb, hcf]
      simpa using teardownOrdered_nil
    · simp [Rdict.close, hdb]
    · simp [Rdict.close, hdb, hcf]
  | some u =>
    cases hcf : r.column_family with
    | none =>
      refine ⟨?_, ?_, ?_, ?_⟩
      · simp only [Rdict.close, hdb, hcf]
        simpa using teardownOrdered_flush_dropDB false
      · simp only [Rdict.dropTrace, hdb, hcf]
        simpa using teardownOrdered_flush_dropDB false
      · simp [Rdict.close, hdb]
      · simp [Rdict.close, hdb]
    | some cfname =>
      refine ⟨?_, ?_, ?_, ?_⟩
      · simp only [Rdict.close, hdb, hcf]
        simpa using teardownOrdered_flush_dropCF_dropDB true
      · simp only [Rdict.dropTrace, hdb, hcf]
        simpa using teardownOrdered_flush_dropCF_dropDB true
      · simp [Rdict.close, hdb]
      · simp [Rdict.close, hdb]

/-- Witness for C1 at a freshly opened Rdict. -/
theorem c1_teardown_ordering_witness :
    TeardownOrdered ((Rdict.opened trivSer).close).2.1 ∧
    TeardownOrdered (Rdict.opened trivSer).dropTrace ∧
    ((Rdict.opened trivSer).close).1.db = none ∧
    ((Rdict.opened trivSer).close).1.column_family = none :=
  c1_teardown_ordering (Rdict.opened trivSer) (by intro h; simp [Rdict.opened] at h)

/-- C2 counterexample: the two IEEE zeros are semantically equal same-
kind float keys, yet their encodings compare strictly, so byte order
does not equal semantic order on every same-kind pair. -/
theorem c2_counterexample :
    (TypedKey.float 0x8000000000000000).valid ∧ (TypedKey.float 0).valid ∧
    (TypedKey.float 0x8000000000000000).kind = (TypedKey.float 0).kind ∧
    semCompareKey (TypedKey.float 0x8000000000000000) (TypedKey.float 0) = .eq ∧
    lexCompare (encode_key (TypedKey.float 0x8000000000000000))
      (encode_key (TypedKey.float 0)) = .lt := by
  refine ⟨by decide, by decide, rfl, by decide, by decide⟩

/-- C2 amended: byte-wise comparison of encoded same-kind keys equals
semantic comparison for every representable pair — integers, floats,
booleans, text and raw bytes — except the single pair of distinct IEEE
zeros, which are semantically equal but encode to adjacent distinct
byte sequences. -/
theorem c2_order_preservation {a b : TypedKey} (ha : a.valid) (hb : b.valid)
    (hk : a.kind = b.kind) (hz : ¬ distinctZeroFloats a b) :
    lexCompare (encode_key a) (encode_key b) = semCompareKey a b :=
  encode_key_order ha hb hk hz

/-- Witness for C2 on the concrete pairs named by the claim:
-5 against 0 and 0 against 5 as integers, and the doubles
-1.5 against -0.5 and 0.0 against 0.5 by bit pattern. -/
theorem c2_order_preservation_witness :
    lexCompare (encode_key (TypedKey.int (-5))) (encode_key (TypedKey.int 0)) =
      semCompareKey (TypedKey.int (-5)) (TypedKey.int 0) ∧
    lexCompare (encode_key (TypedKey.int 0)) (encode_key (TypedKey.int 5)) =
      semCompareKey (TypedKey.int 0) (TypedKey.int 5) ∧
    lexCompare (encode_key (TypedKey.float 0xBFF8000000000000))
      (encode_key (TypedKey.float 0xBFE0000000000000)) =
      semCompareKey (TypedKey.float 0xBFF8000000000000) (TypedKey.float 0xBFE0000000000000) ∧
    lexCompare (encode_key (TypedKey.float 0)) (encode_key (TypedKey.float 0x3FE0000000000000)) =
      semCompareKey (TypedKey.float 0) (TypedKey.float 0x3FE0000000000000) :=
  ⟨c2_order_preservation (by decide) (by decide) (by decide) (by decide),
   c2_order_preservation (by decide) (by decide) (by decide) (by decide),
   c2_order_preservation (by decide) (by decide) (by decide) (by decide),
   c2_order_preservation (by decide) (by decide) (by decide) (by decide)⟩

/-- C3: decoding the encoded value returns the original value for every
representable typed value, including opaque values whenever the
serializer round-trips; consequently a read of a key just written
returns the written value. -/
theorem c3_value_roundtrip {Obj : Type} (r : Rdict Obj)
    (hser : ∀ o : Obj, r.ser.loads (r.ser.dumps o) = some o)
    {v : TypedValue Obj} (hv : v.valid) :
    decode_value r.ser (encode_value r.ser v) = .ok v ∧
    ∀ (db db2 : DB) (k : TypedKey), r.setitem db k v = .ok db2 →
      r.getitem db2 k = .ok v := by
  refine ⟨decode_encode_value r.ser hser hv, ?_⟩
  intro db db2 k hset
  cases hdb : r.db with
  | none =>
    simp only [Rdict.setitem, hdb] at hset
    exact Except.noConfusion hset
  | some u =>
    simp only [Rdict.setitem, hdb] at hset
    cases hput : dbPut db r.column_family (encode_key k) (encode_value r.ser v) with
    | none => rw [hput] at hset; exact Except.noConfusion hset
    | some db2x =>
      rw [hput] at hset
      cases hset
      simp only [Rdict.getitem, hdb, dbGet_dbPut hput]
      exact decode_encode_value r.ser hser hv

/-- The engine state after the witness write for C3. -/
def c3WitnessDB : DB :=
  { store := [(encode_key (TypedKey.int 5),
      encode_value trivSer (TypedValue.int 42 : TypedValue Unit))]
    cfs := []
    mayExist := fun _ _ => true }

/-- Witness for C3: the round trip of 42 and a concrete write-then-read
of key 5. -/
theorem c3_value_roundtrip_witness :
    decode_value trivSer (encode_value trivSer (TypedValue.int 42 : TypedValue Unit)) =
      .ok (TypedValue.int 42) ∧
    (Rdict.opened trivSer).getitem c3WitnessDB (TypedKey.int 5) = .ok (TypedValue.int 42) :=
  ⟨(c3_value_roundtrip (Rdict.opened trivSer) (fun _ => rfl) (by decide)).1,
   (c3_value_roundtrip (Rdict.opened trivSer) (fun _ => rfl) (by decide)).2
     emptyDB c3WitnessDB (TypedKey.int 5) rfl⟩

/-- C4 counterexample: a second close() is not a successful no-op — it
raises the DB-already-closed exception. -/
theorem c4_counterexample :
    (((Rdict.opened trivSer).close).1.close).2.2 = .error dbClosedErr ∧
    (((Rdict.opened trivSer).close).1.close).2.2 ≠ .ok () := by
  refine ⟨rfl, ?_⟩
  intro h
  rw [show (((Rdict.opened trivSer).close).1.close).2.2 = Except.error dbClosedErr from rfl] at h
  exact Except.noConfusion h

/-- C4 amended: calling close() a second time raises the
DB-already-closed exception; it performs no flush and releases nothing
a second time (the teardown trace is empty) and leaves the already-
closed state unchanged. -/
theorem c4_close_second_raises {Obj : Type} (r : Rdict Obj) :
    ((r.close).1).close = ((r.close).1, [], .error dbClosedErr) := by
  cases hdb : r.db <;> simp [Rdict.close, hdb]

/-- C5 counterexample: the single-key lookup of an absent key raises
the key-not-found exception rather than returning an absent result. -/
theorem c5_counterexample :
    (Rdict.opened trivSer).getitem emptyDB (TypedKey.int 0) = .error keyNotFoundErr := rfl

/-- C5 amended: for every absent key on an open handle, the batch
lookup reports the absence as an explicit None without raising, while
the single-key lookup raises the dedicated key-not-found error, which
is distinct from the corrupt-encoding and closed-handle errors. -/
theorem c5_absent_key {Obj : Type} (r : Rdict Obj) (db : DB) (k : TypedKey)
    (hopen : r.db = some ())
    (habs : dbGet db r.column_family (encode_key k) = none) :
    r.getitem db k = .error keyNotFoundErr ∧
    r.getBatch db [k] = .ok [none] ∧
    keyNotFoundErr ≠ corruptEncodingErr ∧ keyNotFoundErr ≠ dbClosedErr := by
  refine ⟨?_, ?_, by decide, by decide⟩
  · simp only [Rdict.getitem, hopen, habs]
  · simp only [Rdict.getBatch, hopen, get_batch_inner, List.map_cons, List.map_nil, habs,
      decodeOptList]
    rfl

/-- Witness for C5 at an empty engine. -/
theorem c5_absent_key_witness :
    (Rdict.opened trivSer).getitem emptyDB (TypedKey.int 0) = .error keyNotFoundErr ∧
    (Rdict.opened trivSer).getBatch emptyDB [TypedKey.int 0] = .ok [none] ∧
    keyNotFoundErr ≠ corruptEncodingErr ∧ keyNotFoundErr ≠ dbClosedErr :=
  c5_absent_key (Rdict.opened trivSer) emptyDB (TypedKey.int 0) rfl rfl

/-- The engine used by the C6 counterexample: one column family named
c, still empty. -/
def c6DB : DB := { store := [], cfs := [("c", [])], mayExist := fun _ _ => true }

/-- The column-family view handed out by get_column_family on c6DB. -/
def c6Child : Rdict Unit :=
  { db := some ()
    write_opt := writeOptionsFromPy WriteOptionsPy.new
    flush_opt := FlushOptionsPy.new
    read_opt := readOptionsFromPy ReadOptionsPy.default
    ser := trivSer
    column_family := some "c"
    write_opt_py := WriteOptionsPy.new
    read_opt_py := ReadOptionsPy.default }

/-- The engine after the C6 counterexample write through the child. -/
def c6DB2 : DB :=
  { store := []
    cfs := [("c", [(encode_key (TypedKey.int 1),
      encode_value trivSer (TypedValue.bool true : TypedValue Unit))])]
    mayExist := fun _ _ => true }

/-- C6 counterexample: a column-family Rdict obtained before close()
holds its own clone of the shared engine handle; after the parent is
closed, writing and reading through the child still succeed instead of
failing with the closed-handle error. -/
theorem c6_counterexample :
    (Rdict.opened trivSer).get_column_family c6DB "c" = .ok c6Child ∧
    ((Rdict.opened trivSer).close).2.2 = .ok () ∧
    c6Child.setitem c6DB (TypedKey.int 1) (TypedValue.bool true) = .ok c6DB2 ∧
    c6Child.getitem c6DB2 (TypedKey.int 1) = .ok (TypedValue.bool true) :=
  ⟨rfl, rfl, rfl, rfl⟩

/-- C6 amended: after close() returns on an Rdict, every subsequent
operation on that same object — get, set, delete, contains, batch get,
iter, flush, column-family creation, lookup and drop, and ingestion —
fails with the DB-already-closed error.  (Column-family Rdicts obtained
earlier keep their own shared-handle clone and are not invalidated;
the counterexample demonstrates this.) -/
theorem c6_closed_ops_fail {Obj : Type} (r : Rdict Obj) (db : DB) (k : TypedKey)
    (v : TypedValue Obj) (ks : List TypedKey) (name : String) (paths : List String)
    (w : Bool) (ro : ReadOptionsPy) :
    ((r.close).1).getitem db k = .error dbClosedErr ∧
    ((r.close).1).setitem db k v = .error dbClosedErr ∧
    ((r.close).1).delitem db k = .error dbClosedErr ∧
    ((r.close).1).contains db k = .error dbClosedErr ∧
    ((r.close).1).getBatch db ks = .error dbClosedErr ∧
    ((r.close).1).iterOp ro = .error dbClosedErr ∧
    ((r.close).1).flushOp w = .error dbClosedErr ∧
    ((r.close).1).get_column_family db name = .error dbClosedErr ∧
    ((r.close).1).create_column_family db name = .error dbClosedErr ∧
    ((r.close).1).drop_column_family db name = .error dbClosedErr ∧
    ((r.close).1).ingest_external_file paths = .error dbClosedErr := by
  have hclosed : ((r.close).1).db = none := by
    cases hdb : r.db <;> simp [Rdict.close, hdb]
  refine ⟨?_, ?_, ?_, ?_, ?_, ?_, ?_, ?_, ?_, ?_, ?_⟩ <;>
    simp only [Rdict.getitem, Rdict.setitem, Rdict.delitem, Rdict.contains, Rdict.getBatch,
      Rdict.iterOp, Rdict.flushOp, Rdict.get_column_family, Rdict.create_column_family,
      Rdict.drop_column_family, Rdict.ingest_external_file, hclosed]

/-- C7 counterexample: PlainTableFactoryOptions.user_key_length is not
forwarded verbatim — a caller-supplied 5 reaches the engine as 6. -/
theorem c7_counterexample :
    (plainTableFromPy
      { user_key_length := 5, bloom_bits_per_key := 10,
        hash_table_ratio := 0, index_sparseness := 16 }).user_key_length = 6 ∧
    (plainTableFromPy
      { user_key_length := 5, bloom_bits_per_key := 10,
        hash_table_ratio := 0, index_sparseness := 16 }).user_key_length ≠ 5 := by
  refine ⟨rfl, by decide⟩

/-- C7 amended: all six WriteOptions flags and the other three
PlainTableFactoryOptions fields are forwarded to the engine verbatim;
user_key_length alone is forwarded incremented by one (u32 arithmetic)
whenever it is positive — it reaches the engine unchanged exactly when
it is zero. -/
theorem c7_forwarding (w : WriteOptionsPy) (p : PlainTableFactoryOptionsPy) :
    (writeOptionsFromPy w).sync = w.sync ∧
    (writeOptionsFromPy w).disable_wal = w.disable_wal ∧
    (writeOptionsFromPy w).ignore_missing_column_families =
      w.ignore_missing_column_families ∧
    (writeOptionsFromPy w).no_slowdown = w.no_slowdown ∧
    (writeOptionsFromPy w).low_pri = w.low_pri ∧
    (writeOptionsFromPy w).memtable_insert_hint_per_batch =
      w.memtable_insert_hint_per_batch ∧
    (plainTableFromPy p).bloom_bits_per_key = p.bloom_bits_per_key ∧
    (plainTableFromPy p).hash_table_ratio = p.hash_table_ratio ∧
    (plainTableFromPy p).index_sparseness = p.index_sparseness ∧
    (plainTableFromPy p).user_key_length =
      (if 0 < p.user_key_length then (p.user_key_length + 1) % 2 ^ 32 else 0) ∧
    ((plainTableFromPy p).user_key_length = p.user_key_length ↔
      p.user_key_length = 0) := by
  refine ⟨rfl, rfl, rfl, rfl, rfl, rfl, rfl, rfl, rfl, rfl, ?_⟩
  simp only [plainTableFromPy]
  split_ifs <;> omega

/-- The read options carrying the C8 bound installed from the integer
key 0. -/
def c8BoundOptions : ReadOptionsPy :=
  ⟨some {ReadOptions.default with
    iterateUpperBound := some (encode_value trivSer (TypedValue.int 0 : TypedValue Unit))}⟩

/-- The engine after storing the integer key 0 through __setitem__. -/
def c8DB : DB :=
  { store := [(encode_key (TypedKey.int 0),
      encode_value trivSer (TypedValue.bool true : TypedValue Unit))]
    cfs := []
    mayExist := fun _ _ => true }

/-- C8: the byte sequence installed as an iterator bound for the key 0
comes from encode_value and differs from the byte sequence under which
__setitem__ stores that same key (encode_key), so the installed bound
does not align with any stored key. -/
theorem c8_bound_encoding_mismatch :
    ReadOptionsPy.default.set_iterate_upper_bound trivSer (TypedValue.int 0) =
      .ok c8BoundOptions ∧
    (Rdict.opened trivSer).setitem emptyDB (TypedKey.int 0) (TypedValue.bool true) =
      .ok c8DB ∧
    encode_value trivSer (TypedValue.int 0 : TypedValue Unit) ≠
      encode_key (TypedKey.int 0) ∧
    storeGet c8DB.store (encode_value trivSer (TypedValue.int 0 : TypedValue Unit)) =
      none := by
  refine ⟨rfl, rfl, by decide, by decide⟩

/-- C9: on an open handle, __contains__ answers exactly whether a point
read finds a stored value, assuming only the engine contract that
key_may_exist has no false negatives; the pre-check can therefore never
cause a false positive (a positive answer is confirmed by a get) nor a
false negative, and __contains__ is false exactly when __getitem__
raises key-not-found. -/
theorem c9_contains_iff_found {Obj : Type} (r : Rdict Obj) (db : DB) (k : TypedKey)
    (hopen : r.db = some ())
    (hmay : (dbGet db r.column_family (encode_key k)).isSome = true →
      db.mayExist r.column_family (encode_key k) = true) :
    r.contains db k = .ok ((dbGet db r.column_family (encode_key k)).isSome) ∧
    (r.getitem db k = .error keyNotFoundErr ↔
      dbGet db r.column_family (encode_key k) = none) := by
  constructor
  · simp only [Rdict.contains, hopen]
    cases hget : dbGet db r.column_family (encode_key k) with
    | some slice =>
      have := hmay (by simp [hget])
      simp [this, hget]
    | none =>
      cases hm : db.mayExist r.column_family (encode_key k) <;> simp [hm, hget]
  · constructor
    · intro h
      cases hget : dbGet db r.column_family (encode_key k) with
      | some slice =>
        simp only [Rdict.getitem, hopen, hget] at h
        have := decode_value_error_corrupt r.ser slice keyNotFoundErr h
        exact absurd this (by decide)
      | none => rfl
    · intro h
      simp only [Rdict.getitem, hopen, h]

/-- The engine used by the C9 witness: key 7 present, pre-check always
positive. -/
def c9DB : DB :=
  { store := [(encode_key (TypedKey.int 7),
      encode_value trivSer (TypedValue.int 49 : TypedValue Unit))]
    cfs := []
    mayExist := fun _ _ => true }

/-- Witness for C9 with a present key and an absent key. -/
theorem c9_contains_iff_found_witness :
    ((Rdict.opened trivSer).contains c9DB (TypedKey.int 7) =
      .ok ((dbGet c9DB none (encode_key (TypedKey.int 7))).isSome) ∧
    ((Rdict.opened trivSer).getitem c9DB (TypedKey.int 7) = .error keyNotFoundErr ↔
      dbGet c9DB none (encode_key (TypedKey.int 7)) = none)) ∧
    ((Rdict.opened trivSer).contains c9DB (TypedKey.int 8) =
      .ok ((dbGet c9DB none (encode_key (TypedKey.int 8))).isSome) ∧
    ((Rdict.opened trivSer).getitem c9DB (TypedKey.int 8) = .error keyNotFoundErr ↔
      dbGet c9DB none (encode_key (TypedKey.int 8)) = none)) :=
  ⟨c9_contains_iff_found (Rdict.opened trivSer) c9DB (TypedKey.int 7) rfl (fun _ => rfl),
   c9_contains_iff_found (Rdict.opened trivSer) c9DB (TypedKey.int 8) rfl (fun _ => rfl)⟩

/-- C10: a ReadOptions wrapper whose inner engine object has been
consumed rejects every setter with the already-consumed error, while a
freshly constructed wrapper accepts every setter. -/
theorem c10_read_options_single_use (r : ReadOptionsPy) (h : r.inner = none)
    (v : Bool) (n : Nat) (key : TypedValue Unit) :
    (r.fill_cache v = .error readOptionsConsumedErr ∧
     r.set_iterate_upper_bound trivSer key = .error readOptionsConsumedErr ∧
     r.set_iterate_lower_bound trivSer key = .error readOptionsConsumedErr ∧
     r.set_same_pfx_as_start v = .error readOptionsConsumedErr ∧
     r.set_total_order_seek v = .error readOptionsConsumedErr ∧
     r.set_max_skippable_internal_keys n = .error readOptionsConsumedErr ∧
     r.set_background_purge_on_interator_cleanup v = .error readOptionsConsumedErr ∧
     r.set_ignore_range_deletions v = .error readOptionsConsumedErr ∧
     r.set_verify_checksums v = .error readOptionsConsumedErr ∧
     r.set_readahead_size n = .error readOptionsConsumedErr ∧
     r.set_tailing v = .error readOptionsConsumedErr ∧
     r.set_pin_data v = .error readOptionsConsumedErr) ∧
    ((∃ o, ReadOptionsPy.default.fill_cache v = .ok o) ∧
     (∃ o, ReadOptionsPy.default.set_iterate_upper_bound trivSer key = .ok o) ∧
     (∃ o, ReadOptionsPy.default.set_iterate_lower_bound trivSer key = .ok o) ∧
     (∃ o, ReadOptionsPy.default.set_same_pfx_as_start v = .ok o) ∧
     (∃ o, ReadOptionsPy.default.set_total_order_seek v = .ok o) ∧
     (∃ o, ReadOptionsPy.default.set_max_skippable_internal_keys n = .ok o) ∧
     (∃ o, ReadOptionsPy.default.set_background_purge_on_interator_cleanup v = .ok o) ∧
     (∃ o, ReadOptionsPy.default.set_ignore_range_deletions v = .ok o) ∧
     (∃ o, ReadOptionsPy.default.set_verify_checksums v = .ok o) ∧
     (∃ o, ReadOptionsPy.default.set_readahead_size n = .ok o) ∧
     (∃ o, ReadOptionsPy.default.set_tailing v = .ok o) ∧
     (∃ o, ReadOptionsPy.default.set_pin_data v = .ok o)) := by
  constructor
  · refine ⟨?_, ?_, ?_, ?_, ?_, ?_, ?_, ?_, ?_, ?_, ?_, ?_⟩ <;>
      simp only [ReadOptionsPy.fill_cache, ReadOptionsPy.set_iterate_upper_bound,
        ReadOptionsPy.set_iterate_lower_bound, ReadOptionsPy.set_same_pfx_as_start,
        ReadOptionsPy.set_total_order_seek, ReadOptionsPy.set_max_skippable_internal_keys,
        ReadOptionsPy.set_background_purge_on_interator_cleanup,
        ReadOptionsPy.set_ignore_range_deletions, ReadOptionsPy.set_verify_checksums,
        ReadOptionsPy.set_readahead_size, ReadOptionsPy.set_tailing,
        ReadOptionsPy.set_pin_data, h]
  · exact ⟨⟨_, rfl⟩, ⟨_, rfl⟩, ⟨_, rfl⟩, ⟨_, rfl⟩, ⟨_, rfl⟩, ⟨_, rfl⟩, ⟨_, rfl⟩, ⟨_, rfl⟩,
      ⟨_, rfl⟩, ⟨_, rfl⟩, ⟨_, rfl⟩, ⟨_, rfl⟩⟩

/-- Witness for C10 at an explicitly consumed wrapper. -/
theorem c10_read_options_single_use_witness :
    ((⟨none⟩ : ReadOptionsPy).fill_cache true = .error readOptionsConsumedErr ∧
     (⟨none⟩ : ReadOptionsPy).set_iterate_upper_bound trivSer (TypedValue.int 0) =
       .error readOptionsConsumedErr ∧
     (⟨none⟩ : ReadOptionsPy).set_iterate_lower_bound trivSer (TypedValue.int 0) =
       .error readOptionsConsumedErr ∧
     (⟨none⟩ : ReadOptionsPy).set_same_pfx_as_start true = .error readOptionsConsumedErr ∧
     (⟨none⟩ : ReadOptionsPy).set_total_order_seek true = .error readOptionsConsumedErr ∧
     (⟨none⟩ : ReadOptionsPy).set_max_skippable_internal_keys 0 =
       .error readOptionsConsumedErr ∧
     (⟨none⟩ : ReadOptionsPy).set_background_purge_on_interator_cleanup true =
       .error readOptionsConsumedErr ∧
     (⟨none⟩ : ReadOptionsPy).set_ignore_range_deletions true =
       .error readOptionsConsumedErr ∧
     (⟨none⟩ : ReadOptionsPy).set_verify_checksums true = .error readOptionsConsumedErr ∧
     (⟨none⟩ : ReadOptionsPy).set_readahead_size 0 = .error readOptionsConsumedErr ∧
     (⟨none⟩ : ReadOptionsPy).set_tailing true = .error readOptionsConsumedErr ∧
     (⟨none⟩ : ReadOptionsPy).set_pin_data true = .error readOptionsConsumedErr) ∧
    ((∃ o, ReadOptionsPy.default.fill_cache true = .ok o) ∧
     (∃ o, ReadOptionsPy.default.set_iterate_upper_bound trivSer (TypedValue.int 0) = .ok o) ∧
     (∃ o, ReadOptionsPy.default.set_iterate_lower_bound trivSer (TypedValue.int 0) = .ok o) ∧
     (∃ o, ReadOptionsPy.default.set_same_pfx_as_start true = .ok o) ∧
     (∃ o, ReadOptionsPy.default.set_total_order_seek true = .ok o) ∧
     (∃ o, ReadOptionsPy.default.set_max_skippable_internal_keys 0 = .ok o) ∧
     (∃ o, ReadOptionsPy.default.set_background_purge_on_interator_cleanup true = .ok o) ∧
     (∃ o, ReadOptionsPy.default.set_ignore_range_deletions true = .ok o) ∧
     (∃ o, ReadOptionsPy.default.set_verify_checksums true = .ok o) ∧
     (∃ o, ReadOptionsPy.default.set_readahead_size 0 = .ok o) ∧
     (∃ o, ReadOptionsPy.default.set_tailing true = .ok o) ∧
     (∃ o, ReadOptionsPy.default.set_pin_data true = .ok o)) :=
  c10_read_options_single_use ⟨none⟩ rfl true 0 (TypedValue.int 0)

end RocksDict
